import Mathlib

/-!
Verification of the submission-and-synchronization core of a Vulkan compute
demo (`src/bin/basic.rs`). The demo records GPU command sequences (buffer
copies, compute dispatches, image clears and image-to-buffer copies), submits
them through `sync::now(...).then_execute(...).then_signal_fence_and_flush()`,
and waits on the resulting fence future (`future.wait(None)`).

The recorded command lists, buffer/image contents and the compute shader body
are translated from the source; the device-side execution and synchronization
semantics (what a copy or dispatch does, ordering, fence wait behaviour) live
in the underlying library and are modelled from the specification.
-/

namespace VulkanoPractice

/-- An RGBA pixel, one natural number per 8-bit channel. -/
abbrev Color := Nat × Nat × Nat × Nat

/-- Wrap-around of an unsigned 32-bit machine integer (`uint` in the shader,
`u32` in the host code). -/
def u32 (n : Nat) : Nat := n % 2 ^ 32

/-- UNORM conversion of one float clear-color channel to an 8-bit channel for
format `R8G8B8A8_UNORM`: clamp to [0, 1], scale by 255, round to nearest.
The clear values used by the source (0.0 and 1.0) are exact, so the channel
is modelled as a rational. -/
def unorm8 (q : ℚ) : Nat := (⌊max 0 (min 1 q) * 255 + 1 / 2⌋).toNat

/-- UNORM conversion of a 4-channel float clear color to RGBA bytes. -/
def unormColor (c : ℚ × ℚ × ℚ × ℚ) : Color :=
  (unorm8 c.1, unorm8 c.2.1, unorm8 c.2.2.1, unorm8 c.2.2.2)

/-- The compute pipelines the demo builds. The `Simple` and `Image` arms bind
no pipeline; the `Compute` arm builds the multiply-by-12 shader
(`buf.data[idx] *= 12`, `local_size_x = 64`). -/
inductive PipelineKind
  | multiplyBy12
deriving DecidableEq

/-- The operations recordable into a command sequence, as used by
`src/bin/basic.rs`: `copy_buffer`, `bind_pipeline_compute`,
`bind_descriptor_sets`, `dispatch`, `clear_color_image`,
`copy_image_to_buffer`. Resources are named by index into the state's
buffer/image lists. -/
inductive Op
  | copyBuffer (src dst : Nat)
  | bindPipelineCompute (p : PipelineKind)
  | bindDescriptorSets (buf : Nat)
  | dispatch (gx gy gz : Nat)
  | clearColorImage (img : Nat) (c : ℚ × ℚ × ℚ × ℚ)
  | copyImageToBuffer (img buf : Nat)
deriving DecidableEq

/-- Device-visible memory plus the command-state the recorded binds establish:
buffers hold machine words (bytes or u32s), images hold RGBA pixels. -/
structure CmdState where
  buffers : List (List Nat)
  images : List (List Color)
  pipeline : Option PipelineKind
  dset : Option Nat
deriving DecidableEq

/-- One write of the Compute-arm shader body `buf.data[idx] *= 12` at global
invocation index `idx`, in `uint` arithmetic. Under the total embedding an
out-of-bounds index leaves the buffer unchanged (`List.set` is the identity
past the end). -/
def shaderMulWrite (buf : List Nat) (idx : Nat) : List Nat :=
  buf.set idx (u32 (buf.getD idx 0 * 12))

/-- One invocation of the multiply-by-12 shader: the body reads only
`gl_GlobalInvocationID.x`. -/
def shaderMul12 (buf : List Nat) (gid : Nat × Nat × Nat) : List Nat :=
  shaderMulWrite buf gid.1

/-- All global invocation ids of a dispatch whose total grid is
`cx × cy × cz` invocations. -/
def gidList (cx cy cz : Nat) : List (Nat × Nat × Nat) :=
  (List.range cz).flatMap fun z =>
    (List.range cy).flatMap fun y =>
      (List.range cx).map fun x => (x, y, z)

/-- Device execution of a dispatch of `[gx, gy, gz]` work groups for a bound
pipeline: the multiply-by-12 shader has local size `(64, 1, 1)`, so the grid
is `gx * 64 × gy × gz` invocations, each running the shader body once. -/
def runPipeline (p : PipelineKind) (buf : List Nat) (gx gy gz : Nat) : List Nat :=
  match p with
  | .multiplyBy12 => (gidList (gx * 64) (gy * 1) (gz * 1)).foldl shaderMul12 buf

/-- Linear byte layout of one RGBA pixel, as `copy_image_to_buffer` writes it
for format `R8G8B8A8_UNORM`. -/
def pixelBytes (c : Color) : List Nat := [c.1, c.2.1, c.2.2.1, c.2.2.2]

/-- Modelled from the spec: device-side effect of one recorded operation
(the library's implementation of copy/clear/dispatch is not part of the
repository). `copy_buffer` copies the whole source into the destination;
binds update the command state; `dispatch` runs the bound pipeline over the
bound buffer; `clear_color_image` sets every pixel to the UNORM-converted
clear color; `copy_image_to_buffer` writes the image's pixels into the buffer
in linear RGBA byte order. -/
def applyOp (m : CmdState) : Op → CmdState
  | .copyBuffer src dst => { m with buffers := m.buffers.set dst (m.buffers.getD src []) }
  | .bindPipelineCompute p => { m with pipeline := some p }
  | .bindDescriptorSets b => { m with dset := some b }
  | .dispatch gx gy gz =>
      match m.pipeline, m.dset with
      | some p, some b =>
          { m with buffers := m.buffers.set b (runPipeline p (m.buffers.getD b []) gx gy gz) }
      | _, _ => m
  | .clearColorImage img c =>
      { m with images :=
          m.images.set img (List.replicate (m.images.getD img []).length (unormColor c)) }
  | .copyImageToBuffer img buf =>
      { m with buffers := m.buffers.set buf ((m.images.getD img []).flatMap pixelBytes) }

/-- Modelled from the spec: within one command sequence, recorded operations
take effect on the device in recorded order. -/
def applyOps (m : CmdState) (ops : List Op) : CmdState := ops.foldl applyOp m

/-- Modelled from the spec: a completion handle is pending (`submitted`) or
`signaled`. -/
inductive HandleState
  | submitted
  | signaled
deriving DecidableEq

/-- Modelled from the spec: outcomes of `wait`. -/
inductive WaitResult
  | ok
  | timeout
  | deviceLost
deriving DecidableEq

/-- Modelled from the spec: `wait(timeout)` blocks until the handle signals or
the timeout elapses. `signalTime` is the instant the device signals the fence
(`none` meaning the device faults and never signals). A wait on an
already-signaled handle returns `Ok` at once; an indefinite wait
(`timeout = none`) returns `Ok` when the device signals; a bounded wait
returns `Ok` if the device signals within the bound and `Timeout` otherwise,
leaving the handle `submitted`. -/
def wait : HandleState → Option Nat → Option Nat → WaitResult × HandleState
  | .signaled, _, _ => (.ok, .signaled)
  | .submitted, some _, none => (.ok, .signaled)
  | .submitted, some s, some t =>
      if s ≤ t then (.ok, .signaled) else (.timeout, .submitted)
  | .submitted, none, _ => (.deviceLost, .submitted)

/-- Modelled from the spec: a submitted one-shot sequence together with its
completion handle; `wait` never touches the recorded work. -/
structure InFlight where
  state : HandleState
  work : List Op
deriving DecidableEq

/-- Modelled from the spec: waiting on an in-flight submission's handle; the
recorded work is not canceled or altered by a wait. -/
def waitInFlight (f : InFlight) (signalTime timeout : Option Nat) :
    WaitResult × InFlight :=
  let r := wait f.state signalTime timeout
  (r.1, ⟨r.2, f.work⟩)

/-- Modelled from the spec: the one-shot path the demo arms all take —
build the sequence, submit it (handle enters `submitted`), `wait(None)` until
the device signals at `signalTime`, after which memory reflects the
sequence's effects in recorded order. -/
def runOneShot (m : CmdState) (ops : List Op) (signalTime : Nat) :
    WaitResult × CmdState :=
  match wait .submitted (some signalTime) none with
  | (.ok, _) => (.ok, applyOps m ops)
  | (r, _) => (r, m)

/-! ## The demo arms' concrete configurations (from `src/bin/basic.rs`) -/

/-- Source buffer of the `Simple` arm: `0..64`. -/
def simpleSource : List Nat := List.range 64

/-- Destination buffer of the `Simple` arm: 64 zeros. -/
def simpleDestination : List Nat := List.replicate 64 0

/-- Initial memory of the `Simple` arm: buffer 0 is the source, buffer 1 the
destination. -/
def simpleInit : CmdState := ⟨[simpleSource, simpleDestination], [], none, none⟩

/-- Commands recorded by the `Simple` arm: one `copy_buffer(source, destination)`. -/
def simpleOps : List Op := [.copyBuffer 0 1]

/-- Input buffer of the `Compute` arm: `0..65535`. -/
def computeData : List Nat := List.range 65535

/-- Initial memory of the `Compute` arm: buffer 0 is the data buffer. -/
def computeInit : CmdState := ⟨[computeData], [], none, none⟩

/-- Commands recorded by the `Compute` arm: bind the multiply-by-12 pipeline,
bind the data buffer at set 0, dispatch `[1024, 1, 1]` work groups. -/
def computeOps : List Op :=
  [.bindPipelineCompute .multiplyBy12, .bindDescriptorSets 0, .dispatch 1024 1 1]

/-- Readback buffer of the `Image` arm: `1024 * 1024 * 4` zero bytes. -/
def imageBufInit : List Nat := List.replicate (1024 * 1024 * 4) 0

/-- Commands recorded by the `Image` arm: clear the image to
`[0.0, 0.0, 1.0, 1.0]`, then copy the image into the buffer. -/
def imageOps : List Op := [.clearColorImage 0 (0, 0, 1, 1), .copyImageToBuffer 0 0]

/-- Initial memory of the `Image` arm: buffer 0 is the readback buffer and
image 0 holds `pix` (a 1024 × 1024 image whose pre-clear contents are
unspecified device memory, hence a parameter). -/
def imageInit (pix : List Color) : CmdState := ⟨[imageBufInit], [pix], none, none⟩

/-- Host readback of the 4-byte RGBA pixel at index `p` of a byte buffer. -/
def readPixel (buf : List Nat) (p : Nat) : Option Color :=
  match buf[4 * p]?, buf[4 * p + 1]?, buf[4 * p + 2]?, buf[4 * p + 3]? with
  | some r, some g, some b, some a => some (r, g, b, a)
  | _, _, _, _ => none

/-! ## Builder contract (spec §4.3) -/

/-- Modelled from the spec: submission intent declared at build time. -/
inductive Usage
  | oneShot
  | reusable
deriving DecidableEq

/-- Modelled from the spec: errors of `build`. -/
inductive BuildError
  | emptySequence
  | recordingFailed
deriving DecidableEq

/-- Modelled from the spec: an immutable built command sequence. -/
structure CommandSequence where
  ops : List Op
  usage : Usage
deriving DecidableEq

/-- Modelled from the spec: `build` fails with `EmptySequence` on a builder
with zero recorded operations (the builder contract of §4.3). -/
def build (ops : List Op) (u : Usage) : Except BuildError CommandSequence :=
  if ops.isEmpty then .error .emptySequence else .ok ⟨ops, u⟩

/-- Modelled from the spec: record-time errors of the builder. -/
inductive RecordError
  | zeroDispatchCount
deriving DecidableEq

/-- Modelled from the spec: recording `dispatch(gx, gy, gz)` requires every
group count to be positive; a zero count is rejected at record time, before
build and before any submission. Counts are `u32` in the source, so negative
counts are not representable. -/
def recordDispatch (recorded : List Op) (gx gy gz : Nat) :
    Except RecordError (List Op) :=
  if gx = 0 ∨ gy = 0 ∨ gz = 0 then .error .zeroDispatchCount
  else .ok (recorded ++ [.dispatch gx gy gz])

/-! ## Claims C1, C10 — the `Simple` buffer-copy arm -/

/-- C1: for the buffer-copy path, with the source holding `0..64` and the
destination 64 zeros, after recording `copy_buffer(source, destination)` into
a one-shot sequence, submitting and `wait(None)` returning `Ok`, the
destination reads back byte-for-byte equal to the source's contents at submit
time. -/
theorem c1_simple_copy (t : Nat) :
    (runOneShot simpleInit simpleOps t).1 = .ok ∧
    (runOneShot simpleInit simpleOps t).2.buffers[1]? = some simpleSource ∧
    simpleInit.buffers[0]? = some simpleSource ∧
    simpleSource = List.range 64 ∧ simpleDestination = List.replicate 64 0 := by
  refine ⟨rfl, ?_, rfl, rfl, rfl⟩
  rfl

/-- C10: the buffer-copy sequence leaves its source unchanged — after submit
and a successful `wait(None)`, buffer 0 still reads `0..64`, and nothing but
the destination (buffer 1) is modified. -/
theorem c10_copy_preserves_source (t : Nat) :
    (runOneShot simpleInit simpleOps t).2.buffers[0]? = some (List.range 64) ∧
    (runOneShot simpleInit simpleOps t).2.images = simpleInit.images ∧
    ∀ i, i ≠ 1 → (runOneShot simpleInit simpleOps t).2.buffers[i]? = simpleInit.buffers[i]? := by
  refine ⟨rfl, rfl, ?_⟩
  intro i hi
  show (simpleInit.buffers.set 1 (simpleInit.buffers.getD 0 []))[i]? = simpleInit.buffers[i]?
  rw [List.getElem?_set_ne (by omega)]

/-- C10 witness at concrete indices. -/
theorem c10_copy_preserves_source_witness :
    (runOneShot simpleInit simpleOps 0).2.buffers[0]? = some (List.range 64) ∧
    (runOneShot simpleInit simpleOps 0).2.buffers[7]? = simpleInit.buffers[7]? :=
  ⟨(c10_copy_preserves_source 0).1, (c10_copy_preserves_source 0).2.2 7 (by decide)⟩

/-! ## Claims C2, C9 — the `Compute` multiply-by-12 arm -/

/-- The dispatch fold preserves the buffer's length. -/
theorem foldl_shaderMulWrite_length (buf : List Nat) (n : Nat) :
    ((List.range n).foldl shaderMulWrite buf).length = buf.length := by
  induction n with
  | zero => rfl
  | succ n ih =>
      rw [List.range_succ, List.foldl_append, List.foldl_cons, List.foldl_nil,
        shaderMulWrite, List.length_set, ih]

/-- Pointwise effect of running the shader body at every global x-index below
`n`: an in-bounds element `i` is multiplied by 12 (in `uint` arithmetic) when
some invocation reaches it, and untouched otherwise. -/
theorem foldl_shaderMulWrite_getElem (buf : List Nat) (n i : Nat) (hi : i < buf.length) :
    ((List.range n).foldl shaderMulWrite buf)[i]? =
      if i < n then some (u32 (buf.getD i 0 * 12)) else buf[i]? := by
  induction n with
  | zero => simp
  | succ n ih =>
      rw [List.range_succ, List.foldl_append, List.foldl_cons, List.foldl_nil]
      by_cases hin : i = n
      · subst hin
        have hlen : i < ((List.range i).foldl shaderMulWrite buf).length := by
          rw [foldl_shaderMulWrite_length]
          exact hi
        rw [shaderMulWrite, List.getElem?_set_self hlen]
        have hsame : ((List.range i).foldl shaderMulWrite buf).getD i 0 = buf.getD i 0 := by
          rw [List.getD_eq_getElem?_getD, List.getD_eq_getElem?_getD, ih,
            if_neg (Nat.lt_irrefl i)]
        rw [hsame, if_pos (Nat.lt_succ_self i)]
      · rw [shaderMulWrite, List.getElem?_set_ne fun h => hin h.symm, ih]
        by_cases hlt : i < n
        · rw [if_pos hlt, if_pos (Nat.lt_succ_of_lt hlt)]
        · rw [if_neg hlt, if_neg (by omega)]

/-- With `gy = gz = 1` the dispatch grid is the x-axis alone. -/
theorem gidList_x (cx : Nat) : gidList cx 1 1 = (List.range cx).map fun x => (x, 0, 0) := by
  have h1 : List.range 1 = [0] := by decide
  rw [gidList, h1, List.flatMap_cons, List.flatMap_nil, List.flatMap_cons,
    List.flatMap_nil, List.append_nil, List.append_nil]

/-- A `[gx, 1, 1]` dispatch of the multiply-by-12 pipeline is the fold of the
shader body over global x-indices `0 .. gx * 64`. -/
theorem runPipeline_mul12 (buf : List Nat) (gx : Nat) :
    runPipeline .multiplyBy12 buf gx 1 1 =
      (List.range (gx * 64)).foldl shaderMulWrite buf := by
  show (gidList (gx * 64) (1 * 1) (1 * 1)).foldl shaderMul12 buf = _
  have h11 : 1 * 1 = 1 := rfl
  rw [h11, gidList_x, List.foldl_map]
  rfl

/-- C2: with the input buffer holding the 65535 integers `0..65535`, after
submitting the sequence that binds the multiply-by-12 pipeline and dispatches
`[1024, 1, 1]` work groups (local size 64), and a `wait(None)` returning
`Ok`, every in-range index `i < 65535` of the buffer reads back
`input[i] * 12`. -/
theorem c2_compute_multiplies (t i : Nat) (hi : i < 65535) :
    (runOneShot computeInit computeOps t).1 = .ok ∧
    ((runOneShot computeInit computeOps t).2.buffers.getD 0 [])[i]? =
      some (computeData.getD i 0 * 12) ∧
    computeData.getD i 0 = i := by
  have hdc : computeData = List.range 65535 := rfl
  have hdata : computeData.getD i 0 = i := by
    rw [hdc, List.getD_eq_getElem?_getD, List.getElem?_range hi]
    rfl
  refine ⟨rfl, ?_, hdata⟩
  have e1 : applyOps computeInit computeOps =
      applyOp (applyOp (applyOp computeInit (.bindPipelineCompute .multiplyBy12))
        (.bindDescriptorSets 0)) (.dispatch 1024 1 1) := rfl
  have e2 : applyOp computeInit (.bindPipelineCompute .multiplyBy12) =
      CmdState.mk [computeData] [] (some .multiplyBy12) none := rfl
  have e3 : applyOp (CmdState.mk [computeData] [] (some .multiplyBy12) none)
        (.bindDescriptorSets 0) =
      CmdState.mk [computeData] [] (some .multiplyBy12) (some 0) := rfl
  have e4 : applyOp (CmdState.mk [computeData] [] (some .multiplyBy12) (some 0))
        (.dispatch 1024 1 1) =
      CmdState.mk [runPipeline .multiplyBy12 ([computeData].getD 0 []) 1024 1 1] []
        (some .multiplyBy12) (some 0) := rfl
  have e5 : [computeData].getD 0 [] = computeData := List.getD_cons_zero
  have hbuf : (runOneShot computeInit computeOps t).2.buffers =
      [runPipeline .multiplyBy12 computeData 1024 1 1] := by
    show (applyOps computeInit computeOps).buffers = _
    rw [e1, e2, e3, e4, e5]
  rw [hbuf]
  have e6 : [runPipeline .multiplyBy12 computeData 1024 1 1].getD 0 [] =
      runPipeline .multiplyBy12 computeData 1024 1 1 := List.getD_cons_zero
  rw [e6]
  have hlen : i < computeData.length := by
    rw [hdc, List.length_range]
    exact hi
  rw [runPipeline_mul12, foldl_shaderMulWrite_getElem _ _ _ hlen,
    if_pos (by omega : i < 1024 * 64), hdata]
  have h32 : (2 : Nat) ^ 32 = 4294967296 := by norm_num
  rw [u32, h32, Nat.mod_eq_of_lt (by omega)]

/-- C2 witness at index 3 of the run. -/
theorem c2_compute_multiplies_witness :
    (runOneShot computeInit computeOps 0).1 = .ok ∧
    ((runOneShot computeInit computeOps 0).2.buffers.getD 0 [])[3]? =
      some (computeData.getD 3 0 * 12) :=
  ⟨(c2_compute_multiplies 0 3 (by decide)).1,
   (c2_compute_multiplies 0 3 (by decide)).2.1⟩

/-- C9: the `[1024, 1, 1]` dispatch with local size 64 launches exactly
65536 invocations while the bound buffer holds 65535 elements, so the
invocation with global index 65535 indexes one element past the end: under
the total embedding that read is `none` and the shader's write is the
out-of-bounds no-op branch. -/
theorem c9_dispatch_overruns_buffer :
    (gidList (1024 * 64) (1 * 1) (1 * 1)).length = 65536 ∧
    computeData.length = 65535 ∧
    computeData[65535]? = none ∧
    shaderMulWrite computeData 65535 = computeData := by
  have hdc : computeData = List.range 65535 := rfl
  have hlen : computeData.length = 65535 := by
    rw [hdc, List.length_range]
  refine ⟨?_, hlen, ?_, ?_⟩
  · show (gidList (1024 * 64) 1 1).length = 65536
    rw [gidList_x, List.length_map, List.length_range]
  · exact List.getElem?_eq_none (by rw [hlen])
  · rw [shaderMulWrite, List.set_eq_of_length_le (by rw [hlen])]

/-! ## Claim C3 — the `Image` arm: clear then copy, in recorded order -/

/-- Byte `k` of pixel `p` of the linear layout of a constant image. -/
theorem getElem?_flatMap_replicate (c : Color) (n p k : Nat) (hp : p < n) (hk : k < 4) :
    ((List.replicate n c).flatMap pixelBytes)[4 * p + k]? = (pixelBytes c)[k]? := by
  induction n generalizing p with
  | zero => exact absurd hp (Nat.not_lt_zero p)
  | succ n ih =>
      rw [List.replicate_succ, List.flatMap_cons]
      have hlen : (pixelBytes c).length = 4 := rfl
      cases p with
      | zero =>
          have h0 : 4 * 0 + k = k := by omega
          rw [h0, List.getElem?_append_left (by omega)]
      | succ q =>
          rw [List.getElem?_append_right (by rw [hlen]; omega), hlen]
          have hq : 4 * (q + 1) + k - 4 = 4 * q + k := by omega
          rw [hq]
          exact ih q (by omega)

/-- Reading any in-range pixel of the linear layout of a constant image gives
that constant pixel. -/
theorem readPixel_flatMap_replicate (c : Color) (n p : Nat) (hp : p < n) :
    readPixel ((List.replicate n c).flatMap pixelBytes) p = some c := by
  have h0 := getElem?_flatMap_replicate c n p 0 hp (by omega)
  have h1 := getElem?_flatMap_replicate c n p 1 hp (by omega)
  have h2 := getElem?_flatMap_replicate c n p 2 hp (by omega)
  have h3 := getElem?_flatMap_replicate c n p 3 hp (by omega)
  rw [Nat.add_zero] at h0
  rw [readPixel, h0, h1, h2, h3]
  rfl

/-- A zero channel converts to byte 0. -/
theorem unorm8_zero : unorm8 0 = 0 := by
  rw [unorm8]
  norm_num

/-- A full channel converts to byte 255. -/
theorem unorm8_one : unorm8 1 = 255 := by
  rw [unorm8]
  norm_num
  rfl

/-- The UNORM conversion of the recorded clear color `[0.0, 0.0, 1.0, 1.0]`
is the RGBA byte quadruple `(0, 0, 255, 255)`. -/
theorem unormColor_blue : unormColor (0, 0, 1, 1) = (0, 0, 255, 255) := by
  rw [unormColor]
  show (unorm8 0, unorm8 0, unorm8 1, unorm8 1) = _
  rw [unorm8_zero, unorm8_one]

/-- C3: the image-path sequence records clear-image then
copy-image-to-buffer; operations take effect in recorded order, so after a
successful `wait(None)` every 4-byte RGBA pixel of the readback buffer is the
cleared color `(0, 0, 255, 255)` — not the buffer's prior zero-initialized
content, which read `(0, 0, 0, 0)`. -/
theorem c3_clear_copy_in_order (t p : Nat) (pix : List Color)
    (hlen : pix.length = 1024 * 1024) (hp : p < 1024 * 1024) :
    (runOneShot (imageInit pix) imageOps t).1 = .ok ∧
    readPixel ((runOneShot (imageInit pix) imageOps t).2.buffers.getD 0 []) p =
      some (0, 0, 255, 255) ∧
    readPixel imageBufInit p = some (0, 0, 0, 0) := by
  have e1 : applyOps (imageInit pix) imageOps =
      applyOp (applyOp (imageInit pix) (.clearColorImage 0 (0, 0, 1, 1)))
        (.copyImageToBuffer 0 0) := rfl
  have eClear : applyOp (imageInit pix) (.clearColorImage 0 (0, 0, 1, 1)) =
      CmdState.mk [imageBufInit]
        [List.replicate pix.length (unormColor (0, 0, 1, 1))] none none := rfl
  have eCopy : applyOp (CmdState.mk [imageBufInit]
        [List.replicate pix.length (unormColor (0, 0, 1, 1))] none none)
        (.copyImageToBuffer 0 0) =
      CmdState.mk
        [(List.replicate pix.length (unormColor (0, 0, 1, 1))).flatMap pixelBytes]
        [List.replicate pix.length (unormColor (0, 0, 1, 1))] none none := rfl
  have hbuf : (runOneShot (imageInit pix) imageOps t).2.buffers.getD 0 [] =
      (List.replicate pix.length (unormColor (0, 0, 1, 1))).flatMap pixelBytes := by
    show (applyOps (imageInit pix) imageOps).buffers.getD 0 [] = _
    rw [e1, eClear, eCopy]
    exact List.getD_cons_zero
  refine ⟨rfl, ?_, ?_⟩
  · rw [hbuf, readPixel_flatMap_replicate _ _ _ (by rw [hlen]; exact hp),
      unormColor_blue]
  · have hib : imageBufInit = List.replicate (1024 * 1024 * 4) 0 := rfl
    rw [hib, readPixel,
      List.getElem?_replicate_of_lt (by omega : 4 * p < 1024 * 1024 * 4),
      List.getElem?_replicate_of_lt (by omega : 4 * p + 1 < 1024 * 1024 * 4),
      List.getElem?_replicate_of_lt (by omega : 4 * p + 2 < 1024 * 1024 * 4),
      List.getElem?_replicate_of_lt (by omega : 4 * p + 3 < 1024 * 1024 * 4)]

/-- C3 witness: pixel 0 of the run on a zero-initialized image. -/
theorem c3_clear_copy_in_order_witness :
    readPixel ((runOneShot (imageInit (List.replicate (1024 * 1024) (0, 0, 0, 0)))
        imageOps 0).2.buffers.getD 0 []) 0 = some (0, 0, 255, 255) :=
  (c3_clear_copy_in_order 0 0 (List.replicate (1024 * 1024) (0, 0, 0, 0))
    (by rw [List.length_replicate]) (by decide)).2.1

/-! ## Claim C4 — chained submissions (spec §4.4 submission engine) -/

/-- Modelled from the spec: a submission handed to the engine — its recorded
sequence and the optional completion handle (index of an earlier submission)
it must not start before. -/
structure Submission where
  ops : List Op
  preceding : Option Nat
deriving DecidableEq

/-- Modelled from the spec: a submission's device-side progress — not yet
started, running with the remaining operations, or done (its completion
handle has signaled). -/
inductive SubStatus
  | notStarted
  | running (rest : List Op)
  | done
deriving DecidableEq

/-- Modelled from the spec: engine state — device-visible memory plus each
submission's progress, one status per submission. -/
structure EngineState where
  mem : CmdState
  status : List SubStatus
deriving DecidableEq

/-- Modelled from the spec: one device scheduling step. The device may start
a submission only once its declared predecessor has signaled (the strict
happens-before edge of `precedingHandle`), executes a started submission's
operations in recorded order, and signals a submission once its operations
are exhausted. Independent submissions interleave freely. -/
inductive EngStep (subs : List Submission) : EngineState → EngineState → Prop
  | start (s : EngineState) (i : Nat) (sub : Submission)
      (hsub : subs[i]? = some sub)
      (hst : s.status[i]? = some .notStarted)
      (hdep : ∀ j, sub.preceding = some j → s.status[j]? = some .done) :
      EngStep subs s ⟨s.mem, s.status.set i (.running sub.ops)⟩
  | exec (s : EngineState) (i : Nat) (op : Op) (rest : List Op)
      (hst : s.status[i]? = some (.running (op :: rest))) :
      EngStep subs s ⟨applyOp s.mem op, s.status.set i (.running rest)⟩
  | finish (s : EngineState) (i : Nat)
      (hst : s.status[i]? = some (.running [])) :
      EngStep subs s ⟨s.mem, s.status.set i .done⟩

/-- Modelled from the spec: the engine states reachable from `s₀`. -/
def EngReachable (subs : List Submission) (s₀ s : EngineState) : Prop :=
  Relation.ReflTransGen (EngStep subs) s₀ s

/-- Two sequences, the second submitted with `precedingHandle = handle(S1)`
(in the source: the second work item is chained onto the prior future before
execution). -/
def chained2 (ops₀ ops₁ : List Op) : List Submission :=
  [⟨ops₀, none⟩, ⟨ops₁, some 0⟩]

/-- The engine state before any device progress. -/
def initEngine (m : CmdState) : EngineState := ⟨m, [.notStarted, .notStarted]⟩

/-- Appending one operation to an executed prefix applies it last. -/
theorem applyOps_append_one (m : CmdState) (p : List Op) (op : Op) :
    applyOps m (p ++ [op]) = applyOp (applyOps m p) op := by
  rw [applyOps, List.foldl_append]
  rfl

/-- Invariant of the chained two-submission system: S2 never makes progress
before S1 is done, and the memory reflects exactly the operations executed so
far, in recorded order. -/
def Inv2 (ops₀ ops₁ : List Op) (m₀ : CmdState) (s : EngineState) : Prop :=
  s.status.length = 2 ∧
  match s.status[0]?, s.status[1]? with
  | some SubStatus.notStarted, some SubStatus.notStarted => s.mem = m₀
  | some (SubStatus.running r₀), some SubStatus.notStarted =>
      ∃ p, ops₀ = p ++ r₀ ∧ s.mem = applyOps m₀ p
  | some SubStatus.done, some SubStatus.notStarted => s.mem = applyOps m₀ ops₀
  | some SubStatus.done, some (SubStatus.running r₁) =>
      ∃ p, ops₁ = p ++ r₁ ∧ s.mem = applyOps (applyOps m₀ ops₀) p
  | some SubStatus.done, some SubStatus.done => s.mem = applyOps (applyOps m₀ ops₀) ops₁
  | _, _ => False

/-- One engine step preserves the chained-system invariant. -/
theorem Inv2_preserved (ops₀ ops₁ : List Op) (m₀ : CmdState) (s s' : EngineState)
    (hstep : EngStep (chained2 ops₀ ops₁) s s') (hinv : Inv2 ops₀ ops₁ m₀ s) :
    Inv2 ops₀ ops₁ m₀ s' := by
  obtain ⟨hlen, hmatch⟩ := hinv
  obtain ⟨st0, h0⟩ : ∃ x, s.status[0]? = some x :=
    ⟨s.status.get ⟨0, by omega⟩, List.getElem?_eq_getElem (by omega)⟩
  obtain ⟨st1, h1⟩ : ∃ x, s.status[1]? = some x :=
    ⟨s.status.get ⟨1, by omega⟩, List.getElem?_eq_getElem (by omega)⟩
  rw [h0, h1] at hmatch
  cases hstep with
  | start i sub hsub hst hdep =>
      have hi : i < 2 := by
        by_contra hge
        rw [List.getElem?_eq_none (by omega)] at hst
        cases hst
      refine ⟨by rw [List.length_set, hlen], ?_⟩
      interval_cases i
      · have hsub0 : sub = ⟨ops₀, none⟩ := by
          rw [chained2, List.getElem?_cons_zero] at hsub
          cases hsub
          rfl
        rw [hst] at h0
        cases h0
        subst hsub0
        rw [show (EngineState.mk s.mem (s.status.set 0 (.running ops₀))).status[0]? =
            (s.status.set 0 (.running ops₀))[0]? from rfl,
          List.getElem?_set_self (by omega),
          show (EngineState.mk s.mem (s.status.set 0 (.running ops₀))).status[1]? =
            s.status[1]? from List.getElem?_set_ne (by omega), h1]
        cases st1 with
        | notStarted => exact ⟨[], rfl, hmatch⟩
        | running r => exact hmatch.elim
        | done => exact hmatch.elim
      · have hsub1 : sub = ⟨ops₁, some 0⟩ := by
          rw [chained2] at hsub
          cases hsub
          rfl
        rw [hst] at h1
        cases h1
        have hdone0 : s.status[0]? = some .done := by
          apply hdep 0
          rw [hsub1]
        rw [hdone0] at h0
        cases h0
        subst hsub1
        rw [show (EngineState.mk s.mem (s.status.set 1 (.running ops₁))).status[0]? =
            s.status[0]? from List.getElem?_set_ne (by omega), hdone0,
          show (EngineState.mk s.mem (s.status.set 1 (.running ops₁))).status[1]? =
            (s.status.set 1 (.running ops₁))[1]? from rfl,
          List.getElem?_set_self (by omega)]
        exact ⟨[], rfl, hmatch⟩
  | exec i op rest hst =>
      have hi : i < 2 := by
        by_contra hge
        rw [List.getElem?_eq_none (by omega)] at hst
        cases hst
      refine ⟨by rw [List.length_set, hlen], ?_⟩
      interval_cases i
      · rw [hst] at h0
        cases h0
        rw [show (EngineState.mk (applyOp s.mem op) (s.status.set 0 (.running rest))).status[0]? =
            (s.status.set 0 (.running rest))[0]? from rfl,
          List.getElem?_set_self (by omega),
          show (EngineState.mk (applyOp s.mem op) (s.status.set 0 (.running rest))).status[1]? =
            s.status[1]? from List.getElem?_set_ne (by omega), h1]
        cases st1 with
        | notStarted =>
            obtain ⟨p, hops, hmem⟩ := hmatch
            refine ⟨p ++ [op], by rw [hops, List.append_assoc]; rfl, ?_⟩
            rw [applyOps_append_one, hmem]
        | running r => exact hmatch.elim
        | done => exact hmatch.elim
      · rw [hst] at h1
        cases h1
        cases st0 with
        | notStarted => exact hmatch.elim
        | running r => exact hmatch.elim
        | done =>
            obtain ⟨p, hops, hmem⟩ := hmatch
            rw [show (EngineState.mk (applyOp s.mem op) (s.status.set 1 (.running rest))).status[0]? =
                s.status[0]? from List.getElem?_set_ne (by omega), h0,
              show (EngineState.mk (applyOp s.mem op) (s.status.set 1 (.running rest))).status[1]? =
                (s.status.set 1 (.running rest))[1]? from rfl,
              List.getElem?_set_self (by omega)]
            refine ⟨p ++ [op], by rw [hops, List.append_assoc]; rfl, ?_⟩
            rw [applyOps_append_one, hmem]
  | finish i hst =>
      have hi : i < 2 := by
        by_contra hge
        rw [List.getElem?_eq_none (by omega)] at hst
        cases hst
      refine ⟨by rw [List.length_set, hlen], ?_⟩
      interval_cases i
      · rw [hst] at h0
        cases h0
        rw [show (EngineState.mk s.mem (s.status.set 0 .done)).status[0]? =
            (s.status.set 0 .done)[0]? from rfl,
          List.getElem?_set_self (by omega),
          show (EngineState.mk s.mem (s.status.set 0 .done)).status[1]? =
            s.status[1]? from List.getElem?_set_ne (by omega), h1]
        cases st1 with
        | notStarted =>
            obtain ⟨p, hops, hmem⟩ := hmatch
            rw [List.append_nil] at hops
            rw [hmem, hops]
        | running r => exact hmatch.elim
        | done => exact hmatch.elim
      · rw [hst] at h1
        cases h1
        cases st0 with
        | notStarted => exact hmatch.elim
        | running r => exact hmatch.elim
        | done =>
            obtain ⟨p, hops, hmem⟩ := hmatch
            rw [List.append_nil] at hops
            rw [show (EngineState.mk s.mem (s.status.set 1 .done)).status[0]? =
                s.status[0]? from List.getElem?_set_ne (by omega), h0,
              show (EngineState.mk s.mem (s.status.set 1 .done)).status[1]? =
                (s.status.set 1 .done)[1]? from rfl,
              List.getElem?_set_self (by omega)]
            rw [hmem, hops]

/-- C4: for sequences S1, S2 with S2 submitted on `precedingHandle =
handle(S1)`, in every reachable engine state, S2 has made no progress unless
handle(S1) has signaled (no command of S2 begins before S1 signals), and if
waiting on handle(S2) observes it signaled then memory carries all of S1's
effects followed by S2's. -/
theorem c4_chained_happens_before (ops₀ ops₁ : List Op) (m₀ : CmdState)
    (s : EngineState)
    (h : EngReachable (chained2 ops₀ ops₁) (initEngine m₀) s) :
    (s.status[1]? ≠ some .notStarted → s.status[0]? = some .done) ∧
    (s.status[1]? = some .done → s.mem = applyOps (applyOps m₀ ops₀) ops₁) := by
  have hinv : Inv2 ops₀ ops₁ m₀ s := by
    induction h with
    | refl => exact ⟨rfl, rfl⟩
    | tail hr hstep ih => exact Inv2_preserved _ _ _ _ _ hstep ih
  obtain ⟨hlen, hmatch⟩ := hinv
  obtain ⟨st0, h0⟩ : ∃ x, s.status[0]? = some x :=
    ⟨s.status.get ⟨0, by omega⟩, List.getElem?_eq_getElem (by omega)⟩
  obtain ⟨st1, h1⟩ : ∃ x, s.status[1]? = some x :=
    ⟨s.status.get ⟨1, by omega⟩, List.getElem?_eq_getElem (by omega)⟩
  rw [h0, h1] at hmatch
  constructor
  · intro hne
    rw [h1] at hne
    rw [h0]
    cases st1 with
    | notStarted => exact absurd rfl hne
    | running r =>
        cases st0 with
        | notStarted => exact hmatch.elim
        | running r' => exact hmatch.elim
        | done => rfl
    | done =>
        cases st0 with
        | notStarted => exact hmatch.elim
        | running r' => exact hmatch.elim
        | done => rfl
  · intro hdone
    rw [h1] at hdone
    cases hdone
    cases st0 with
    | notStarted => exact hmatch.elim
    | running r' => exact hmatch.elim
    | done => exact hmatch

/-- C4 witness: an explicit schedule of the chained system (start S1, finish
S1, start S2, finish S2) reaching a state with both handles signaled, to
which the theorem applies. -/
theorem c4_chained_happens_before_witness :
    ((⟨CmdState.mk [] [] none none, [.done, .done]⟩ : EngineState).status[1]? ≠
        some SubStatus.notStarted →
      (⟨CmdState.mk [] [] none none, [.done, .done]⟩ : EngineState).status[0]? =
        some SubStatus.done) ∧
    (⟨CmdState.mk [] [] none none, [.done, .done]⟩ : EngineState).mem =
      applyOps (applyOps (CmdState.mk [] [] none none) []) [] := by
  have reach : EngReachable (chained2 [] []) (initEngine (CmdState.mk [] [] none none))
      ⟨CmdState.mk [] [] none none, [.done, .done]⟩ :=
    .head (.start _ 0 ⟨[], none⟩ rfl rfl (fun j hj => nomatch hj))
      (.head (.finish _ 0 rfl)
        (.head (.start _ 1 ⟨[], some 0⟩ rfl rfl (fun j hj => by cases hj; rfl))
          (.head (.finish _ 1 rfl) .refl)))
  have happ := c4_chained_happens_before [] [] (CmdState.mk [] [] none none) _ reach
  exact ⟨fun hne => happ.1 hne, happ.2 rfl⟩

/-! ## Claims C5, C7 — wait semantics on completion handles -/

/-- C5: `wait` on an already-signaled handle returns `Ok` immediately, for any
timeout (including `None`) and any device signal time, and repeated waits on
the (still signaled) handle keep returning `Ok`: `wait` is idempotent on a
signaled handle. -/
theorem c5_wait_signaled_idempotent (st tmo st₂ tmo₂ : Option Nat) :
    wait .signaled st tmo = (.ok, .signaled) ∧
    wait (wait .signaled st tmo).2 st₂ tmo₂ = (.ok, .signaled) :=
  ⟨rfl, rfl⟩

/-- C7: a `wait` that returns `Timeout` leaves the handle still `submitted`,
with the submitted work unaltered (no cancellation), and a subsequent wait on
the same handle is permitted — an indefinite retry returns `Ok` once the
device signals. -/
theorem c7_timeout_leaves_submitted (f f' : InFlight) (stime tmo : Option Nat)
    (h : waitInFlight f stime tmo = (.timeout, f')) :
    f'.state = .submitted ∧ f.state = .submitted ∧ f'.work = f.work ∧
    ∀ s, waitInFlight f' (some s) none = (.ok, ⟨.signaled, f.work⟩) := by
  rcases f with ⟨st, w⟩
  rcases st with _ | _
  · rcases stime with _ | s
    · simp only [waitInFlight, wait] at h
      cases h
    · rcases tmo with _ | t
      · simp only [waitInFlight, wait] at h
        cases h
      · simp only [waitInFlight, wait] at h
        by_cases hle : s ≤ t
        · rw [if_pos hle] at h
          cases h
        · rw [if_neg hle] at h
          cases h
          exact ⟨rfl, rfl, rfl, fun s' => rfl⟩
  · simp only [waitInFlight, wait] at h
    cases h

/-- C7 witness: a concrete bounded wait that times out (device signals at 5,
timeout 3) on a submitted copy sequence. -/
theorem c7_timeout_leaves_submitted_witness :
    (⟨.submitted, [Op.copyBuffer 0 1]⟩ : InFlight).state = .submitted ∧
    waitInFlight ⟨.submitted, [Op.copyBuffer 0 1]⟩ (some 7) none =
      (.ok, ⟨.signaled, [Op.copyBuffer 0 1]⟩) :=
  have h := c7_timeout_leaves_submitted ⟨.submitted, [Op.copyBuffer 0 1]⟩
    ⟨.submitted, [Op.copyBuffer 0 1]⟩ (some 5) (some 3) (by decide)
  ⟨h.2.1, h.2.2.2 7⟩

/-! ## Claims C6, C8 — builder contract -/

/-- C6: building a command sequence from a builder with zero recorded
operations fails with `EmptySequence`, so no empty sequence is ever produced
by `build` and an empty sequence can never reach submission. -/
theorem c6_empty_build_fails (u : Usage) :
    build [] u = .error .emptySequence ∧
    ∀ ops seq, build ops u = .ok seq → seq.ops ≠ [] := by
  refine ⟨rfl, ?_⟩
  intro ops seq h
  by_cases he : ops.isEmpty
  · rw [build, if_pos he] at h
    cases h
  · rw [build, if_neg he] at h
    cases h
    simpa [List.isEmpty_iff] using he

/-- C6 witness: a one-operation sequence builds, and its operation list is
nonempty. -/
theorem c6_empty_build_fails_witness :
    build [Op.copyBuffer 0 1] Usage.oneShot =
      .ok ⟨[Op.copyBuffer 0 1], Usage.oneShot⟩ ∧
    (⟨[Op.copyBuffer 0 1], Usage.oneShot⟩ : CommandSequence).ops ≠ [] :=
  ⟨rfl, (c6_empty_build_fails Usage.oneShot).2 [Op.copyBuffer 0 1]
    ⟨[Op.copyBuffer 0 1], Usage.oneShot⟩ rfl⟩

/-- C8: recording `dispatch(gx, gy, gz)` rejects a zero group count in any
dimension at record time (before build and submission), and records the
dispatch when all three counts are positive. Group counts are `u32` in the
source, so a negative count is not representable. -/
theorem c8_dispatch_positive_counts (r : List Op) (gx gy gz : Nat) :
    ((gx = 0 ∨ gy = 0 ∨ gz = 0) →
      recordDispatch r gx gy gz = .error .zeroDispatchCount) ∧
    (0 < gx → 0 < gy → 0 < gz →
      recordDispatch r gx gy gz = .ok (r ++ [.dispatch gx gy gz])) := by
  constructor
  · intro h
    rw [recordDispatch, if_pos h]
  · intro hx hy hz
    rw [recordDispatch, if_neg (by omega)]

/-- C8 witness: a zero x-count is rejected; the demo's `[1024, 1, 1]`
dispatch is recorded. -/
theorem c8_dispatch_positive_counts_witness :
    recordDispatch [] 0 1 1 = .error .zeroDispatchCount ∧
    recordDispatch [] 1024 1 1 = .ok ([] ++ [.dispatch 1024 1 1]) :=
  ⟨(c8_dispatch_positive_counts [] 0 1 1).1 (Or.inl rfl),
   (c8_dispatch_positive_counts [] 1024 1 1).2 (by decide) (by decide) (by decide)⟩

end VulkanoPractice
